import Mathlib

/-!
Verification of the Route53 backup/restore lambdas.

Shallow embedding of the three handlers:
  * `backup_lambda.py`            -> `R53.backupBasicHandler`
  * `backup-lambda-with-multiple-hostedzone-name.py` -> `R53.backupMultiHandler`
  * `restore_lambda.py`           -> `R53.restore_lambda_handler`

Python errors are modelled by `R53.PyError`; the S3 object store is an
association list keyed by the object key, where a put prepends (so lookups
see the most recent write, matching S3 overwrite semantics while keeping
the full put trace available to the proofs).
-/

namespace R53

/-- A JSON-ish value, the shape `json.loads`/`json.dumps` operate on. -/
inductive Json where
  | jnum : Int → Json
  | jstr : String → Json
  | jarr : List Json → Json
  | jobj : List (String × Json) → Json

/-- A Python exception, coarsely classified the way the handlers branch on
them: botocore `ClientError` (with its error code), `KeyError` (missing
env var or event field), and anything else. -/
inductive PyError where
  | clientError : String → PyError
  | keyError : String → PyError
  | otherError : String → PyError
deriving DecidableEq, Repr

/-- Rendering used for `str(e)` in the failure bodies. -/
def errMsg : PyError → String
  | .clientError c => "ClientError: " ++ c
  | .keyError k => "KeyError: " ++ k
  | .otherError m => m

/-- True exactly for botocore `ClientError` values (what
`except ClientError` catches in `restore_lambda.py`). -/
def isClientError : PyError → Bool
  | .clientError _ => true
  | _ => false

/-- The dict a handler returns: `statusCode` plus the body's message and
optional error string. -/
structure LambdaResult where
  statusCode : Nat
  message : String
  error : Option String
deriving DecidableEq, Repr

/-- How an invocation ends: a returned result dict, or an uncaught
exception propagating out of the handler. -/
inductive Outcome where
  | returned : LambdaResult → Outcome
  | crashed : PyError → Outcome
deriving DecidableEq, Repr

/-- One resource record set: the `Type` field (the only field the code
reads) plus the rest of the record treated as an opaque blob. -/
structure Record where
  rtype : String
  rdata : String
deriving DecidableEq, Repr

/-- One entry of a Route53 change batch, as built by the restore loop. -/
structure Change where
  action : String
  resourceRecordSet : Record
deriving DecidableEq, Repr

/-- A hosted zone as returned by `list_hosted_zones`: raw `Id` (with path
prefix) and raw `Name` (with trailing dot). -/
structure HostedZone where
  idRaw : String
  nameRaw : String
deriving DecidableEq, Repr

/-- Python `zone['Id'].split('/')[-1]`: the last `/`-separated segment,
i.e. the suffix after the final slash (the whole string when there is no
slash, empty when the string ends in a slash). -/
def stripZoneId (s : String) : String :=
  String.mk ((s.data.reverse.takeWhile (fun c => c ≠ '/')).reverse)

/-- Python `zone['Name'].rstrip('.')`: remove every trailing dot. -/
def rstripDot (s : String) : String :=
  String.mk ((s.data.reverse.dropWhile (fun c => c = '.')).reverse)

/-- `datetime.now().strftime` zero-padding to two digits. -/
def pad2 (n : Nat) : String :=
  if n < 10 then "0" ++ toString n else toString n

/-- `strftime` zero-padding of the year to four digits. -/
def pad4 (n : Nat) : String :=
  if n < 10 then "000" ++ toString n
  else if n < 100 then "00" ++ toString n
  else if n < 1000 then "0" ++ toString n
  else toString n

/-- The wall-clock instant a backup run starts at. -/
structure DateTime where
  year : Nat
  month : Nat
  day : Nat
  hour : Nat
  minute : Nat
  second : Nat
deriving DecidableEq, Repr

/-- `strftime("%Y%m%d_%H%M%S")` (basic backup variant). -/
def strftimeBasic (t : DateTime) : String :=
  pad4 t.year ++ pad2 t.month ++ pad2 t.day ++ "_" ++
    pad2 t.hour ++ pad2 t.minute ++ pad2 t.second

/-- `strftime("%Y-%m-%d_%H:%M:%S")` (collision-aware backup variant). -/
def strftimeMulti (t : DateTime) : String :=
  pad4 t.year ++ "-" ++ pad2 t.month ++ "-" ++ pad2 t.day ++ "_" ++
    pad2 t.hour ++ ":" ++ pad2 t.minute ++ ":" ++ pad2 t.second

/-- `f"{current_date}/{zone_name}/route53_backup.json"` (basic variant). -/
def backupKeyBasic (date zname : String) : String :=
  date ++ "/" ++ zname ++ "/route53_backup.json"

/-- `f"{current_date}/{zone_name}/{zone_id}/route53_backup.json"`
(collision-aware variant). -/
def backupKeyMulti (date zname zid : String) : String :=
  date ++ "/" ++ zname ++ "/" ++ zid ++ "/route53_backup.json"

/-- `f"{current_date}/{zone_name}/zone_summary.json"`. -/
def summaryKey (date zname : String) : String :=
  date ++ "/" ++ zname ++ "/zone_summary.json"

/-- The S3 bucket contents: newest put first, so lookup sees overwrites
while the whole put trace stays visible. -/
abbrev Store := List (String × Json)

/-- `s3.put_object`: the new object shadows any previous one at the key. -/
def storePut (st : Store) (k : String) (v : Json) : Store :=
  (k, v) :: st

/-- What `s3.get_object` would find at a key. -/
def storeGet : Store → String → Option Json
  | [], _ => none
  | (k, v) :: st, key => if key = k then some v else storeGet st key

/-- Result of an `s3.get_object` call: the parsed body, or a
`ClientError` carrying its error code. -/
inductive S3GetResult where
  | ok : Json → S3GetResult
  | clientError : String → S3GetResult

/-- JSON encoding of one record inside a backup document. -/
def recordJson (r : Record) : Json :=
  Json.jobj [("Type", .jstr r.rtype), ("Data", .jstr r.rdata)]

/-- The `backup_data` dict of `backup_lambda.py` (no record count). -/
def backupDocBasic (zname zid : String) (records : List Record) : Json :=
  Json.jobj [("zone", Json.jobj [("Id", .jstr zid), ("Name", .jstr zname)]),
             ("records", Json.jarr (records.map recordJson))]

/-- The `backup_data` dict of the collision-aware variant (with
`RecordCount`). -/
def backupDocMulti (zname zid : String) (records : List Record) : Json :=
  Json.jobj [("zone", Json.jobj [("Id", .jstr zid), ("Name", .jstr zname),
              ("RecordCount", .jnum (records.length : Int))]),
             ("records", Json.jarr (records.map recordJson))]

/-- The `summary_data` dict built for the current zone. -/
def summaryEntryJsonOf (date zname zid : String) (records : List Record) : Json :=
  Json.jobj [("zone_name", .jstr zname), ("zone_id", .jstr zid),
             ("record_count", .jnum (records.length : Int)),
             ("backup_path", .jstr (backupKeyMulti date zname zid))]

/-- Lines 81-96 of the collision-aware backup: read the existing summary,
append to it if it is a list, wrap `[existing, current]` if it is a single
value, start `[current]` on `NoSuchKey`, and re-raise any other
`ClientError`. -/
def summaryUpdate (res : S3GetResult) (entry : Json) : Except PyError Json :=
  match res with
  | .ok (.jarr l) => .ok (.jarr (l ++ [entry]))
  | .ok other => .ok (.jarr [other, entry])
  | .clientError code =>
    if code = "NoSuchKey" then .ok (.jarr [entry]) else .error (.clientError code)

/-- `zone_name_count` update: `+= 1` when present, `= 1` otherwise, with
absent keys read as 0. -/
def bump (counts : String → Nat) (n : String) : String → Nat :=
  fun m => if m = n then counts m + 1 else counts m

/-- The environment a backup run executes against: the env var, the
outcomes of the AWS calls, and fault injection for puts. -/
structure BackupEnv where
  backupBucket : Option String
  listZones : Except PyError (List HostedZone)
  fetchRecords : String → Except PyError (List Record)
  getObject : Store → String → S3GetResult
  putFault : String → Option PyError

/-- The loop body of the collision-aware backup (lines 32-105): bump the
name count, fetch the zone's records, write the backup document, and when
this name has now been seen more than once, merge-and-write the summary
document. -/
def processZone (env : BackupEnv) (date : String) (counts : String → Nat)
    (st : Store) (z : HostedZone) : Except PyError ((String → Nat) × Store) :=
  let zid := stripZoneId z.idRaw
  let zname := rstripDot z.nameRaw
  let cnew := bump counts zname
  match env.fetchRecords zid with
  | .error e => .error e
  | .ok records =>
    let bkey := backupKeyMulti date zname zid
    match env.putFault bkey with
    | some e => .error e
    | none =>
      let st1 := storePut st bkey (backupDocMulti zname zid records)
      if cnew zname > 1 then
        let skey := summaryKey date zname
        match summaryUpdate (env.getObject st1 skey)
            (summaryEntryJsonOf date zname zid records) with
        | .error e => .error e
        | .ok content =>
          match env.putFault skey with
          | some e => .error e
          | none => .ok (cnew, storePut st1 skey content)
      else .ok (cnew, st1)

/-- The zone loop of the collision-aware backup. -/
def runMultiAux (env : BackupEnv) (date : String) :
    (String → Nat) → Store → List HostedZone → Except PyError Store
  | _, st, [] => .ok st
  | counts, st, z :: rest =>
    match processZone env date counts st z with
    | .error e => .error e
    | .ok (cnew, st1) => runMultiAux env date cnew st1 rest

/-- The `try` body of the collision-aware handler: read the env var, list
the zones, then run the zone loop against an initially empty name count
and put trace. -/
def backupMultiBody (env : BackupEnv) (now : DateTime) : Except PyError Store :=
  match env.backupBucket with
  | none => .error (.keyError "BACKUP_BUCKET")
  | some _ =>
    match env.listZones with
    | .error e => .error e
    | .ok zones => runMultiAux env (strftimeMulti now) (fun _ => 0) [] zones

/-- The collision-aware handler: `except Exception` turns every error into
a 500 result. -/
def backupMultiHandler (env : BackupEnv) (now : DateTime) : Outcome :=
  match backupMultiBody env now with
  | .ok _ => .returned ⟨200, "Backup operation completed", none⟩
  | .error e => .returned ⟨500, "Backup operation failed", some (errMsg e)⟩

/-- The loop body of `backup_lambda.py` (lines 28-57): fetch the zone's
records and write its backup document. -/
def processZoneBasic (env : BackupEnv) (date : String) (st : Store)
    (z : HostedZone) : Except PyError Store :=
  let zid := stripZoneId z.idRaw
  let zname := rstripDot z.nameRaw
  match env.fetchRecords zid with
  | .error e => .error e
  | .ok records =>
    let bkey := backupKeyBasic date zname
    match env.putFault bkey with
    | some e => .error e
    | none => .ok (storePut st bkey (backupDocBasic zname zid records))

/-- The zone loop of the basic backup. -/
def runBasicAux (env : BackupEnv) (date : String) :
    Store → List HostedZone → Except PyError Store
  | st, [] => .ok st
  | st, z :: rest =>
    match processZoneBasic env date st z with
    | .error e => .error e
    | .ok st1 => runBasicAux env date st1 rest

/-- The `try` body of `backup_lambda.py`. -/
def backupBasicBody (env : BackupEnv) (now : DateTime) : Except PyError Store :=
  match env.backupBucket with
  | none => .error (.keyError "BACKUP_BUCKET")
  | some _ =>
    match env.listZones with
    | .error e => .error e
    | .ok zones => runBasicAux env (strftimeBasic now) [] zones

/-- The basic handler: `except Exception` turns every error into a 500
result. -/
def backupBasicHandler (env : BackupEnv) (now : DateTime) : Outcome :=
  match backupBasicBody env now with
  | .ok _ => .returned ⟨200, "Backup operation completed", none⟩
  | .error e => .returned ⟨500, "Backup operation failed", some (errMsg e)⟩

/-- The honest S3 `get_object` behaviour over the modelled store: found
objects come back, missing keys raise `ClientError` with code
`NoSuchKey`. -/
def faithfulGet (st : Store) (k : String) : S3GetResult :=
  match storeGet st k with
  | some v => .ok v
  | none => .clientError "NoSuchKey"

/-- A fault-free backup environment: the bucket exists, zone listing and
record fetches succeed with the given data, gets read the store, puts
never fail. -/
def faithfulEnv (bucket : String) (zones : List HostedZone)
    (recs : String → List Record) : BackupEnv :=
  { backupBucket := some bucket
    listZones := .ok zones
    fetchRecords := fun i => .ok (recs i)
    getObject := faithfulGet
    putFault := fun _ => none }

/-- A backup document as the restore handler consumes it: the zone
metadata (never read by restore) and the `records` list. -/
structure BackupDoc where
  zoneMeta : Json
  records : List Record

/-- Line 31 of `restore_lambda.py`:
`[r for r in records if r['Type'] not in ['NS', 'SOA']]`. -/
def filteredRecords (doc : BackupDoc) : List Record :=
  doc.records.filter (fun r => !(r.rtype == "NS" || r.rtype == "SOA"))

/-- Fuel-indexed worker for `chunks100`; the fuel only serves structural
termination and is always at least the list length at the call site. -/
def chunks100Go {α : Type} : Nat → List α → List (List α)
  | _, [] => []
  | 0, _ :: _ => []
  | fuel + 1, x :: xs => ((x :: xs).take 100) :: chunks100Go fuel ((x :: xs).drop 100)

/-- `range(0, len(l), 100)` slicing: consecutive chunks of at most 100. -/
def chunks100 {α : Type} (l : List α) : List (List α) :=
  chunks100Go l.length l

theorem chunks100Go_nil {α : Type} (fuel : Nat) :
    chunks100Go fuel ([] : List α) = [] := by
  cases fuel <;> rfl

theorem chunks100Go_congr {α : Type} :
    ∀ (fuel fuel' : Nat) (l : List α), l.length ≤ fuel → l.length ≤ fuel' →
      chunks100Go fuel l = chunks100Go fuel' l := by
  intro fuel
  induction fuel with
  | zero =>
    intro fuel' l h _
    match l with
    | [] => rw [chunks100Go_nil, chunks100Go_nil]
    | x :: xs => simp at h
  | succ f ih =>
    intro fuel' l h h'
    match l with
    | [] => rw [chunks100Go_nil, chunks100Go_nil]
    | x :: xs =>
      match fuel' with
      | 0 => simp at h'
      | f' + 1 =>
        show ((x :: xs).take 100) :: chunks100Go f ((x :: xs).drop 100)
            = ((x :: xs).take 100) :: chunks100Go f' ((x :: xs).drop 100)
        have hl : ((x :: xs).drop 100).length ≤ f := by
          simp only [List.length_drop, List.length_cons] at *
          omega
        have hl' : ((x :: xs).drop 100).length ≤ f' := by
          simp only [List.length_drop, List.length_cons] at *
          omega
        rw [ih f' _ hl hl']

@[simp] theorem chunks100_nil {α : Type} : chunks100 ([] : List α) = [] := rfl

theorem chunks100_cons {α : Type} (x : α) (xs : List α) :
    chunks100 (x :: xs) = ((x :: xs).take 100) :: chunks100 ((x :: xs).drop 100) := by
  show chunks100Go (xs.length + 1) (x :: xs) = _
  show ((x :: xs).take 100) :: chunks100Go xs.length ((x :: xs).drop 100)
      = ((x :: xs).take 100) :: chunks100Go ((x :: xs).drop 100).length ((x :: xs).drop 100)
  rw [chunks100Go_congr xs.length ((x :: xs).drop 100).length ((x :: xs).drop 100)
    (by simp) (le_refl _)]

/-- The change batches the restore loop submits: one batch per chunk, one
`CREATE` action per record, in order (lines 33-42). -/
def restoreBatches (doc : BackupDoc) : List (List Change) :=
  (chunks100 (filteredRecords doc)).map (fun b => b.map (fun r => ⟨"CREATE", r⟩))

/-- The environment a restore run executes against: env var, event
fields, the fetched backup document, and the outcome of each
`change_resource_record_sets` call by call index. -/
structure RestoreEnv where
  backupBucket : Option String
  eventBackupKey : Option String
  eventHostedZoneId : Option String
  fetchDoc : String → String → Except PyError BackupDoc
  submitResult : Nat → Except PyError Unit

/-- The submission loop: returns the batches that were applied (their
call succeeded), the indices of calls that were attempted, and the first
error if one occurred; on an error the loop stops at once. -/
def submitLoop (submit : Nat → Except PyError Unit) :
    Nat → List (List Change) → List (List Change) × List Nat × Option PyError
  | _, [] => ([], [], none)
  | i, b :: rest =>
    match submit i with
    | .ok _ =>
      match submitLoop submit (i + 1) rest with
      | (applied, tried, e) => (b :: applied, i :: tried, e)
    | .error e => ([], [i], some e)

/-- The `try` body of `restore_lambda.py` (lines 15-50): read env var and
event fields, fetch and parse the backup document, filter, batch, and
submit; the result is the applied batches, the attempted call indices,
and either the restored zone id or the raised error. -/
def restoreBody (env : RestoreEnv) :
    List (List Change) × List Nat × Except PyError String :=
  match env.backupBucket with
  | none => ([], [], .error (.keyError "BACKUP_BUCKET"))
  | some bucket =>
    match env.eventBackupKey with
    | none => ([], [], .error (.keyError "backup_key"))
    | some key =>
      match env.eventHostedZoneId with
      | none => ([], [], .error (.keyError "hosted_zone_id"))
      | some zid =>
        match env.fetchDoc bucket key with
        | .error e => ([], [], .error e)
        | .ok doc =>
          match submitLoop env.submitResult 0 (restoreBatches doc) with
          | (applied, tried, some e) => (applied, tried, .error e)
          | (applied, tried, none) => (applied, tried, .ok zid)

/-- The restore handler. Its only `except` clause is
`except ClientError` (line 52): a `ClientError` becomes a structured 500
result, and any other exception escapes the handler uncaught. -/
def restore_lambda_handler (env : RestoreEnv) :
    List (List Change) × List Nat × Outcome :=
  match restoreBody env with
  | (applied, tried, .ok _) =>
    (applied, tried, .returned ⟨200, "Restore operation completed", none⟩)
  | (applied, tried, .error e) =>
    if isClientError e then
      (applied, tried, .returned ⟨500, "Restore operation failed", some (errMsg e)⟩)
    else (applied, tried, .crashed e)

/-! ### String and store lemmas -/

theorem strOfData {a b : String} (h : a.data = b.data) : a = b := by
  cases a
  cases b
  exact congrArg String.mk h

/-- Cancellation for strings of the shape `p ++ x ++ s`. -/
theorem strSandwichInj (p s a b : String) (h : p ++ a ++ s = p ++ b ++ s) : a = b := by
  have hd : (p ++ a ++ s).data = (p ++ b ++ s).data := congrArg String.data h
  rw [show (p ++ a ++ s).data = p.data ++ a.data ++ s.data from rfl,
      show (p ++ b ++ s).data = p.data ++ b.data ++ s.data from rfl] at hd
  exact strOfData (List.append_cancel_left (List.append_cancel_right hd))

/-- A backup-document key never equals a summary-document key: their
fixed filename suffixes differ. -/
theorem backupSuffixNeSummarySuffix (s t : String) :
    s ++ "/route53_backup.json" ≠ t ++ "/zone_summary.json" := by
  intro h
  have h1 : (s ++ "/route53_backup.json").data.reverse.take 18
      = (t ++ "/zone_summary.json").data.reverse.take 18 := by rw [h]
  rw [show (s ++ "/route53_backup.json").data
        = s.data ++ "/route53_backup.json".data from rfl,
      show (t ++ "/zone_summary.json").data
        = t.data ++ "/zone_summary.json".data from rfl,
      List.reverse_append, List.reverse_append,
      List.take_append_of_le_length (by decide),
      List.take_append_of_le_length (by decide)] at h1
  exact absurd h1 (by decide)

theorem backupKeyMulti_ne_summaryKey (date zname zid date2 n : String) :
    backupKeyMulti date zname zid ≠ summaryKey date2 n :=
  backupSuffixNeSummarySuffix (date ++ "/" ++ zname ++ "/" ++ zid) (date2 ++ "/" ++ n)

theorem backupKeyBasic_ne_summaryKey (date zname date2 n : String) :
    backupKeyBasic date zname ≠ summaryKey date2 n :=
  backupSuffixNeSummarySuffix (date ++ "/" ++ zname) (date2 ++ "/" ++ n)

theorem summaryKey_inj (date n1 n2 : String) (h : summaryKey date n1 = summaryKey date n2) :
    n1 = n2 :=
  strSandwichInj (date ++ "/") "/zone_summary.json" n1 n2 h

theorem backupKeyBasic_inj (date n1 n2 : String)
    (h : backupKeyBasic date n1 = backupKeyBasic date n2) : n1 = n2 :=
  strSandwichInj (date ++ "/") "/route53_backup.json" n1 n2 h

theorem backupKeyMulti_inj_id (date n id1 id2 : String)
    (h : backupKeyMulti date n id1 = backupKeyMulti date n id2) : id1 = id2 :=
  strSandwichInj (date ++ "/" ++ n ++ "/") "/route53_backup.json" id1 id2 h

@[simp] theorem storeGet_put_same (st : Store) (k : String) (v : Json) :
    storeGet (storePut st k v) k = some v := by
  simp [storePut, storeGet]

theorem storeGet_put_ne (st : Store) (k k' : String) (v : Json) (h : k' ≠ k) :
    storeGet (storePut st k v) k' = storeGet st k' := by
  simp [storePut, storeGet, h]

theorem storeGet_put_isSome (st : Store) (k k' : String) (v : Json)
    (h : (storeGet (storePut st k v) k').isSome = true) :
    k' = k ∨ (storeGet st k').isSome = true := by
  by_cases hk : k' = k
  · exact Or.inl hk
  · rw [storeGet_put_ne st k k' v hk] at h
    exact Or.inr h

/-! ### Chunking lemmas -/

theorem chunks100_join_fuel {α : Type} :
    ∀ (n : Nat) (l : List α), l.length ≤ n → (chunks100 l).flatten = l := by
  intro n
  induction n with
  | zero =>
    intro l h
    match l with
    | [] => rfl
    | x :: xs => simp at h
  | succ n ih =>
    intro l h
    match l with
    | [] => rfl
    | x :: xs =>
      rw [chunks100_cons, List.flatten_cons]
      have hd : ((x :: xs).drop 100).length ≤ n := by
        simp only [List.length_drop, List.length_cons] at *
        omega
      rw [ih _ hd, List.take_append_drop]

theorem chunks100_join {α : Type} (l : List α) : (chunks100 l).flatten = l :=
  chunks100_join_fuel l.length l (le_refl _)

theorem chunks100_mem_length {α : Type} :
    ∀ (n : Nat) (l : List α) (b : List α), l.length ≤ n → b ∈ chunks100 l →
      1 ≤ b.length ∧ b.length ≤ 100 := by
  intro n
  induction n with
  | zero =>
    intro l b h hb
    match l with
    | [] => simp [chunks100_nil] at hb
    | x :: xs => simp at h
  | succ n ih =>
    intro l b h hb
    match l with
    | [] => simp [chunks100_nil] at hb
    | x :: xs =>
      rw [chunks100_cons] at hb
      rcases List.mem_cons.mp hb with hb | hb
      · subst hb
        constructor
        · simp [List.length_take]
        · simp [List.length_take]
      · have hd : ((x :: xs).drop 100).length ≤ n := by
          simp only [List.length_drop, List.length_cons] at *
          omega
        exact ih _ b hd hb

theorem chunks100_length_fuel {α : Type} :
    ∀ (n : Nat) (l : List α), l.length ≤ n → l.length % 100 ≠ 0 →
      (chunks100 l).length = (l.length + 99) / 100 := by
  intro n
  induction n with
  | zero =>
    intro l h hm
    match l with
    | [] => simp at hm
    | x :: xs => simp at h
  | succ n ih =>
    intro l h hm
    match l with
    | [] => simp at hm
    | x :: xs =>
      rw [chunks100_cons]
      by_cases hlen : (x :: xs).length ≤ 100
      · have : (x :: xs).drop 100 = [] := by
          apply List.drop_eq_nil_of_le hlen
        rw [this, chunks100_nil]
        simp only [List.length_cons, List.length_nil] at *
        omega
      · have hd : ((x :: xs).drop 100).length ≤ n := by
          simp only [List.length_drop, List.length_cons] at *
          omega
        have hdm : ((x :: xs).drop 100).length % 100 ≠ 0 := by
          simp only [List.length_drop, List.length_cons] at *
          omega
        have := ih _ hd hdm
        simp only [List.length_drop, List.length_cons] at *
        omega

theorem chunks100_getLast_fuel {α : Type} :
    ∀ (n : Nat) (l : List α), l.length ≤ n → l.length % 100 ≠ 0 →
      (chunks100 l).getLast?.map List.length = some (l.length % 100) := by
  intro n
  induction n with
  | zero =>
    intro l h hm
    match l with
    | [] => simp at hm
    | x :: xs => simp at h
  | succ n ih =>
    intro l h hm
    match l with
    | [] => simp at hm
    | x :: xs =>
      rw [chunks100_cons]
      by_cases hlen : (x :: xs).length ≤ 100
      · have hnil : (x :: xs).drop 100 = [] := List.drop_eq_nil_of_le hlen
        rw [hnil, chunks100_nil]
        have htk : (x :: xs).take 100 = x :: xs := List.take_of_length_le hlen
        rw [htk]
        have hmod : (x :: xs).length % 100 = (x :: xs).length := by
          have h100 : (x :: xs).length < 100 := by
            rcases Nat.lt_or_ge (x :: xs).length 100 with h | h
            · exact h
            · have : (x :: xs).length = 100 := le_antisymm hlen h
              rw [this] at hm
              simp at hm
          exact Nat.mod_eq_of_lt h100
        rw [hmod]
        rfl
      · have hd : ((x :: xs).drop 100).length ≤ n := by
          simp only [List.length_drop, List.length_cons] at *
          omega
        have hdm : ((x :: xs).drop 100).length % 100 ≠ 0 := by
          simp only [List.length_drop, List.length_cons] at *
          omega
        have hrec := ih _ hd hdm
        have hne : chunks100 ((x :: xs).drop 100) ≠ [] := by
          intro hnil
          rw [hnil] at hrec
          simp at hrec
        rw [show ((x :: xs).take 100 :: chunks100 ((x :: xs).drop 100))
              = [(x :: xs).take 100] ++ chunks100 ((x :: xs).drop 100) from rfl,
            List.getLast?_append_of_ne_nil _ hne, hrec]
        have : ((x :: xs).drop 100).length % 100 = (x :: xs).length % 100 := by
          simp only [List.length_drop, List.length_cons] at *
          omega
        rw [this]

/-! ### Submission loop lemmas -/

theorem submitLoop_all_ok (submit : Nat → Except PyError Unit) :
    ∀ (batches : List (List Change)) (i : Nat),
      (∀ j, submit j = .ok ()) →
      submitLoop submit i batches = (batches, (List.range batches.length).map (i + ·), none) := by
  intro batches
  induction batches with
  | nil => intro i _; rfl
  | cons b rest ih =>
    intro i hok
    show (match submit i with
      | .ok _ =>
        match submitLoop submit (i + 1) rest with
        | (applied, tried, e) => (b :: applied, i :: tried, e)
      | .error e => ([], [i], some e)) = _
    rw [hok i, ih (i + 1) hok]
    have hmap : i :: (List.range rest.length).map (i + 1 + ·)
        = (List.range (rest.length + 1)).map (i + ·) := by
      rw [List.range_succ_eq_map]
      simp only [List.map_cons, List.map_map, Nat.add_zero]
      refine List.cons_eq_cons.mpr ⟨rfl, List.map_congr_left ?_⟩
      intro a _
      show i + 1 + a = i + (a + 1)
      omega
    rw [show (List.range (b :: rest).length).map (i + ·)
          = (List.range (rest.length + 1)).map (i + ·) from rfl, ← hmap]

theorem submitLoop_fail (submit : Nat → Except PyError Unit) :
    ∀ (batches : List (List Change)) (i k : Nat) (e : PyError),
      1 ≤ k → k ≤ batches.length →
      (∀ j, j < k - 1 → submit (i + j) = .ok ()) →
      submit (i + (k - 1)) = .error e →
      submitLoop submit i batches
        = (batches.take (k - 1), (List.range k).map (i + ·), some e) := by
  intro batches
  induction batches with
  | nil =>
    intro i k e hk hlen _ _
    simp at hlen
    omega
  | cons b rest ih =>
    intro i k e hk hlen hok hfail
    match k, hk with
    | 1, _ =>
      have hi : submit i = .error e := by simpa using hfail
      show (match submit i with
        | .ok _ =>
          match submitLoop submit (i + 1) rest with
          | (applied, tried, e) => (b :: applied, i :: tried, e)
        | .error e => ([], [i], some e)) = _
      rw [hi]
      simp [List.range_succ]
    | k' + 2, _ =>
      have hi : submit i = .ok () := by
        have := hok 0 (by omega)
        simpa using this
      show (match submit i with
        | .ok _ =>
          match submitLoop submit (i + 1) rest with
          | (applied, tried, e) => (b :: applied, i :: tried, e)
        | .error e => ([], [i], some e)) = _
      rw [hi]
      have hrec := ih (i + 1) (k' + 1) e (by omega)
        (by simp only [List.length_cons] at hlen; omega)
        (fun j hj => by
          have := hok (j + 1) (by omega)
          have harith : i + (j + 1) = i + 1 + j := by omega
          rw [harith] at this
          exact this)
        (by
          have harith : i + (k' + 2 - 1) = i + 1 + (k' + 1 - 1) := by omega
          rw [harith] at hfail
          exact hfail)
      rw [hrec]
      show (b :: rest.take (k' + 1 - 1), i :: (List.range (k' + 1)).map (i + 1 + ·), some e)
          = ((b :: rest).take (k' + 2 - 1), (List.range (k' + 2)).map (i + ·), some e)
      have hmap : i :: (List.range (k' + 1)).map (i + 1 + ·)
          = (List.range (k' + 2)).map (i + ·) := by
        conv_rhs => rw [List.range_succ_eq_map]
        simp only [List.map_cons, List.map_map, Nat.add_zero]
        refine List.cons_eq_cons.mpr ⟨rfl, List.map_congr_left ?_⟩
        intro a _
        show i + 1 + a = i + (a + 1)
        omega
      rw [hmap]
      rfl

/-! ### Collision-aware run: summary-document invariant -/

/-- The zones of a run whose processed display name equals `n`, in
listing order. -/
def occOf (n : String) (zones : List HostedZone) : List HostedZone :=
  zones.filter (fun z => rstripDot z.nameRaw == n)

/-- The summary entry the run builds for zone `z`. -/
def entryOf (date : String) (recs : String → List Record) (z : HostedZone) : Json :=
  summaryEntryJsonOf date (rstripDot z.nameRaw) (stripZoneId z.idRaw)
    (recs (stripZoneId z.idRaw))

/-- The summary document the store should hold for name `n` after the
zones `pref` have been processed: absent below two occurrences, otherwise
one entry per occurrence from the second on, in processing order. -/
def expectedSummary (date : String) (recs : String → List Record) (n : String)
    (pref : List HostedZone) : Option Json :=
  if 2 ≤ (occOf n pref).length then
    some (.jarr (((occOf n pref).drop 1).map (entryOf date recs)))
  else none

theorem occOf_append_self (z : HostedZone) (pref : List HostedZone) :
    occOf (rstripDot z.nameRaw) (pref ++ [z]) = occOf (rstripDot z.nameRaw) pref ++ [z] := by
  simp [occOf, List.filter_append]

theorem occOf_append_other (n : String) (z : HostedZone) (pref : List HostedZone)
    (h : rstripDot z.nameRaw ≠ n) : occOf n (pref ++ [z]) = occOf n pref := by
  simp [occOf, List.filter_append, h]

/-- Under a fault-free environment `processZone` reduces to a pure
step. -/
theorem processZone_faithful (bucket : String) (zs : List HostedZone)
    (recs : String → List Record) (date : String) (counts : String → Nat)
    (st : Store) (z : HostedZone) :
    processZone (faithfulEnv bucket zs recs) date counts st z =
      (if bump counts (rstripDot z.nameRaw) (rstripDot z.nameRaw) > 1 then
        match summaryUpdate
            (faithfulGet
              (storePut st (backupKeyMulti date (rstripDot z.nameRaw) (stripZoneId z.idRaw))
                (backupDocMulti (rstripDot z.nameRaw) (stripZoneId z.idRaw)
                  (recs (stripZoneId z.idRaw))))
              (summaryKey date (rstripDot z.nameRaw)))
            (entryOf date recs z) with
        | .error e => .error e
        | .ok content =>
          .ok (bump counts (rstripDot z.nameRaw),
               storePut
                 (storePut st (backupKeyMulti date (rstripDot z.nameRaw) (stripZoneId z.idRaw))
                   (backupDocMulti (rstripDot z.nameRaw) (stripZoneId z.idRaw)
                     (recs (stripZoneId z.idRaw))))
                 (summaryKey date (rstripDot z.nameRaw)) content)
      else
        .ok (bump counts (rstripDot z.nameRaw),
             storePut st (backupKeyMulti date (rstripDot z.nameRaw) (stripZoneId z.idRaw))
               (backupDocMulti (rstripDot z.nameRaw) (stripZoneId z.idRaw)
                 (recs (stripZoneId z.idRaw))))) := rfl

/-- Main invariant of the collision-aware run: if the name counts agree
with the occurrence counts over the already-processed prefix and the
store holds exactly the expected summary document for every name, the
run over the remaining zones succeeds and re-establishes the same
relation for the whole list. -/
theorem runMultiAux_summary (bucket : String) (zs : List HostedZone)
    (recs : String → List Record) (date : String) :
    ∀ (rest pref : List HostedZone) (counts : String → Nat) (st : Store),
      (∀ n, counts n = (occOf n pref).length) →
      (∀ n, storeGet st (summaryKey date n) = expectedSummary date recs n pref) →
      ∃ stf, runMultiAux (faithfulEnv bucket zs recs) date counts st rest = .ok stf ∧
        ∀ n, storeGet stf (summaryKey date n) = expectedSummary date recs n (pref ++ rest) := by
  intro rest
  induction rest with
  | nil =>
    intro pref counts st _ hstore
    exact ⟨st, rfl, by simpa using hstore⟩
  | cons z rest ih =>
    intro pref counts st hcount hstore
    have hst1 : ∀ n,
        storeGet (storePut st (backupKeyMulti date (rstripDot z.nameRaw) (stripZoneId z.idRaw))
          (backupDocMulti (rstripDot z.nameRaw) (stripZoneId z.idRaw)
            (recs (stripZoneId z.idRaw)))) (summaryKey date n)
        = storeGet st (summaryKey date n) := by
      intro n
      exact storeGet_put_ne _ _ _ _ (Ne.symm (backupKeyMulti_ne_summaryKey _ _ _ _ _))
    have hcnew : ∀ n, bump counts (rstripDot z.nameRaw) n = (occOf n (pref ++ [z])).length := by
      intro n
      by_cases hn : n = rstripDot z.nameRaw
      · subst hn
        rw [occOf_append_self z pref]
        simp [bump, hcount (rstripDot z.nameRaw), List.length_append]
      · have hz : rstripDot z.nameRaw ≠ n := fun h => hn h.symm
        rw [occOf_append_other n z pref hz]
        simp [bump, hcount n, hn]
    have happ : (pref ++ [z]) ++ rest = pref ++ z :: rest := by simp
    cases hocc : (occOf (rstripDot z.nameRaw) pref).length with
    | zero =>
      have hb : bump counts (rstripDot z.nameRaw) (rstripDot z.nameRaw)
          = 1 := by simp [bump, hcount (rstripDot z.nameRaw), hocc]
      have hstep : processZone (faithfulEnv bucket zs recs) date counts st z
          = .ok (bump counts (rstripDot z.nameRaw),
              storePut st (backupKeyMulti date (rstripDot z.nameRaw) (stripZoneId z.idRaw))
                (backupDocMulti (rstripDot z.nameRaw) (stripZoneId z.idRaw)
                  (recs (stripZoneId z.idRaw)))) := by
        rw [processZone_faithful]
        rw [if_neg]
        rw [hb]
        omega
      have hstore1 : ∀ n,
          storeGet (storePut st (backupKeyMulti date (rstripDot z.nameRaw) (stripZoneId z.idRaw))
            (backupDocMulti (rstripDot z.nameRaw) (stripZoneId z.idRaw)
              (recs (stripZoneId z.idRaw)))) (summaryKey date n)
          = expectedSummary date recs n (pref ++ [z]) := by
        intro n
        rw [hst1 n, hstore n]
        by_cases hn : n = rstripDot z.nameRaw
        · subst hn
          rw [expectedSummary, expectedSummary, occOf_append_self z pref]
          rw [if_neg (by omega), if_neg (by simp [List.length_append, hocc])]
        · have hz : rstripDot z.nameRaw ≠ n := fun h => hn h.symm
          rw [expectedSummary, expectedSummary, occOf_append_other n z pref hz]
      obtain ⟨stf, hrun, hinv⟩ := ih (pref ++ [z]) _ _ hcnew hstore1
      refine ⟨stf, ?_, ?_⟩
      · show (match processZone (faithfulEnv bucket zs recs) date counts st z with
          | .error e => Except.error e
          | .ok (cnew, st1) => runMultiAux (faithfulEnv bucket zs recs) date cnew st1 rest)
          = Except.ok stf
        rw [hstep]
        exact hrun
      · intro n
        rw [hinv n, happ]
    | succ m =>
      have hb : bump counts (rstripDot z.nameRaw) (rstripDot z.nameRaw)
          = m + 2 := by simp [bump, hcount (rstripDot z.nameRaw), hocc]
      have hget1 : storeGet
          (storePut st (backupKeyMulti date (rstripDot z.nameRaw) (stripZoneId z.idRaw))
            (backupDocMulti (rstripDot z.nameRaw) (stripZoneId z.idRaw)
              (recs (stripZoneId z.idRaw)))) (summaryKey date (rstripDot z.nameRaw))
          = expectedSummary date recs (rstripDot z.nameRaw) pref := by
        rw [hst1 _, hstore _]
      have hstoreAfter : ∀ (content : Json),
          (∀ n, storeGet (storePut
              (storePut st (backupKeyMulti date (rstripDot z.nameRaw) (stripZoneId z.idRaw))
                (backupDocMulti (rstripDot z.nameRaw) (stripZoneId z.idRaw)
                  (recs (stripZoneId z.idRaw))))
              (summaryKey date (rstripDot z.nameRaw)) content) (summaryKey date n)
            = if n = rstripDot z.nameRaw then some content
              else expectedSummary date recs n (pref ++ [z])) := by
        intro content n
        by_cases hn : n = rstripDot z.nameRaw
        · subst hn
          rw [if_pos rfl]
          exact storeGet_put_same _ _ _
        · rw [if_neg hn]
          have hkne : summaryKey date n ≠ summaryKey date (rstripDot z.nameRaw) := by
            intro h
            exact hn (summaryKey_inj date n (rstripDot z.nameRaw) h)
          rw [storeGet_put_ne _ _ _ _ hkne, hst1 n, hstore n]
          have hz : rstripDot z.nameRaw ≠ n := fun h => hn h.symm
          rw [expectedSummary, expectedSummary, occOf_append_other n z pref hz]
      cases m with
      | zero =>
        have hget : storeGet
            (storePut st (backupKeyMulti date (rstripDot z.nameRaw) (stripZoneId z.idRaw))
              (backupDocMulti (rstripDot z.nameRaw) (stripZoneId z.idRaw)
                (recs (stripZoneId z.idRaw)))) (summaryKey date (rstripDot z.nameRaw))
            = none := by
          rw [hget1, expectedSummary, if_neg (by omega)]
        have hdropnil : (occOf (rstripDot z.nameRaw) pref).drop 1 = [] := by
          have : ((occOf (rstripDot z.nameRaw) pref).drop 1).length = 0 := by
            rw [List.length_drop, hocc]
          exact List.eq_nil_of_length_eq_zero this
        have hstep : processZone (faithfulEnv bucket zs recs) date counts st z
            = .ok (bump counts (rstripDot z.nameRaw),
                storePut
                  (storePut st (backupKeyMulti date (rstripDot z.nameRaw) (stripZoneId z.idRaw))
                    (backupDocMulti (rstripDot z.nameRaw) (stripZoneId z.idRaw)
                      (recs (stripZoneId z.idRaw))))
                  (summaryKey date (rstripDot z.nameRaw))
                  (Json.jarr [entryOf date recs z])) := by
          rw [processZone_faithful]
          rw [if_pos (by rw [hb]; omega)]
          rw [show faithfulGet
              (storePut st (backupKeyMulti date (rstripDot z.nameRaw) (stripZoneId z.idRaw))
                (backupDocMulti (rstripDot z.nameRaw) (stripZoneId z.idRaw)
                  (recs (stripZoneId z.idRaw))))
              (summaryKey date (rstripDot z.nameRaw))
              = S3GetResult.clientError "NoSuchKey" from by
            simp [faithfulGet, hget]]
          rfl
        have hstore1 : ∀ n,
            storeGet (storePut
                (storePut st (backupKeyMulti date (rstripDot z.nameRaw) (stripZoneId z.idRaw))
                  (backupDocMulti (rstripDot z.nameRaw) (stripZoneId z.idRaw)
                    (recs (stripZoneId z.idRaw))))
                (summaryKey date (rstripDot z.nameRaw))
                (Json.jarr [entryOf date recs z])) (summaryKey date n)
            = expectedSummary date recs n (pref ++ [z]) := by
          intro n
          rw [hstoreAfter (Json.jarr [entryOf date recs z]) n]
          by_cases hn : n = rstripDot z.nameRaw
          · subst hn
            rw [if_pos rfl, expectedSummary, occOf_append_self z pref]
            rw [if_pos (by simp [List.length_append, hocc])]
            rw [List.drop_append_of_le_length (by omega), hdropnil]
            simp
          · rw [if_neg hn]
        obtain ⟨stf, hrun, hinv⟩ := ih (pref ++ [z]) _ _ hcnew hstore1
        refine ⟨stf, ?_, ?_⟩
        · show (match processZone (faithfulEnv bucket zs recs) date counts st z with
            | .error e => Except.error e
            | .ok (cnew, st1) => runMultiAux (faithfulEnv bucket zs recs) date cnew st1 rest)
            = Except.ok stf
          rw [hstep]
          exact hrun
        · intro n
          rw [hinv n, happ]
      | succ m2 =>
        have hget : storeGet
            (storePut st (backupKeyMulti date (rstripDot z.nameRaw) (stripZoneId z.idRaw))
              (backupDocMulti (rstripDot z.nameRaw) (stripZoneId z.idRaw)
                (recs (stripZoneId z.idRaw)))) (summaryKey date (rstripDot z.nameRaw))
            = some (.jarr (((occOf (rstripDot z.nameRaw) pref).drop 1).map
                (entryOf date recs))) := by
          rw [hget1, expectedSummary, if_pos (by omega)]
        have hstep : processZone (faithfulEnv bucket zs recs) date counts st z
            = .ok (bump counts (rstripDot z.nameRaw),
                storePut
                  (storePut st (backupKeyMulti date (rstripDot z.nameRaw) (stripZoneId z.idRaw))
                    (backupDocMulti (rstripDot z.nameRaw) (stripZoneId z.idRaw)
                      (recs (stripZoneId z.idRaw))))
                  (summaryKey date (rstripDot z.nameRaw))
                  (Json.jarr ((((occOf (rstripDot z.nameRaw) pref).drop 1).map
                      (entryOf date recs)) ++ [entryOf date recs z]))) := by
          rw [processZone_faithful]
          rw [if_pos (by rw [hb]; omega)]
          rw [show faithfulGet
              (storePut st (backupKeyMulti date (rstripDot z.nameRaw) (stripZoneId z.idRaw))
                (backupDocMulti (rstripDot z.nameRaw) (stripZoneId z.idRaw)
                  (recs (stripZoneId z.idRaw))))
              (summaryKey date (rstripDot z.nameRaw))
              = S3GetResult.ok (.jarr (((occOf (rstripDot z.nameRaw) pref).drop 1).map
                  (entryOf date recs))) from by
            simp [faithfulGet, hget]]
          rfl
        have hstore1 : ∀ n,
            storeGet (storePut
                (storePut st (backupKeyMulti date (rstripDot z.nameRaw) (stripZoneId z.idRaw))
                  (backupDocMulti (rstripDot z.nameRaw) (stripZoneId z.idRaw)
                    (recs (stripZoneId z.idRaw))))
                (summaryKey date (rstripDot z.nameRaw))
                (Json.jarr ((((occOf (rstripDot z.nameRaw) pref).drop 1).map
                    (entryOf date recs)) ++ [entryOf date recs z]))) (summaryKey date n)
            = expectedSummary date recs n (pref ++ [z]) := by
          intro n
          rw [hstoreAfter _ n]
          by_cases hn : n = rstripDot z.nameRaw
          · subst hn
            rw [if_pos rfl, expectedSummary, occOf_append_self z pref]
            rw [if_pos (by simp [List.length_append, hocc])]
            rw [List.drop_append_of_le_length (by omega)]
            rw [List.map_append]
            simp
          · rw [if_neg hn]
        obtain ⟨stf, hrun, hinv⟩ := ih (pref ++ [z]) _ _ hcnew hstore1
        refine ⟨stf, ?_, ?_⟩
        · show (match processZone (faithfulEnv bucket zs recs) date counts st z with
            | .error e => Except.error e
            | .ok (cnew, st1) => runMultiAux (faithfulEnv bucket zs recs) date cnew st1 rest)
            = Except.ok stf
          rw [hstep]
          exact hrun
        · intro n
          rw [hinv n, happ]

/-! ### Key coverage of the two backup runs -/

theorem processZone_faithful_keys (bucket : String) (zs : List HostedZone)
    (recs : String → List Record) (date : String) (counts : String → Nat)
    (st : Store) (z : HostedZone) (p : (String → Nat) × Store)
    (hp : processZone (faithfulEnv bucket zs recs) date counts st z = .ok p) :
    ∀ k, (storeGet p.2 k).isSome = true →
      (storeGet st k).isSome = true ∨
      k = backupKeyMulti date (rstripDot z.nameRaw) (stripZoneId z.idRaw) ∨
      k = summaryKey date (rstripDot z.nameRaw) := by
  rw [processZone_faithful] at hp
  intro k hk
  split at hp
  · split at hp
    · exact absurd hp (by simp)
    · cases hp
      rcases storeGet_put_isSome _ _ _ _ hk with h | h
      · exact Or.inr (Or.inr h)
      · rcases storeGet_put_isSome _ _ _ _ h with h2 | h2
        · exact Or.inr (Or.inl h2)
        · exact Or.inl h2
  · cases hp
    rcases storeGet_put_isSome _ _ _ _ hk with h | h
    · exact Or.inr (Or.inl h)
    · exact Or.inl h

theorem runMultiAux_keys (bucket : String) (zs : List HostedZone)
    (recs : String → List Record) (date : String) :
    ∀ (rest : List HostedZone) (counts : String → Nat) (st stf : Store),
      runMultiAux (faithfulEnv bucket zs recs) date counts st rest = .ok stf →
      ∀ k, (storeGet stf k).isSome = true →
        (storeGet st k).isSome = true ∨
        ∃ z, z ∈ rest ∧
          (k = backupKeyMulti date (rstripDot z.nameRaw) (stripZoneId z.idRaw) ∨
           k = summaryKey date (rstripDot z.nameRaw)) := by
  intro rest
  induction rest with
  | nil =>
    intro counts st stf hrun k hk
    cases hrun
    exact Or.inl hk
  | cons z rest ih =>
    intro counts st stf hrun k hk
    have hrun' : (match processZone (faithfulEnv bucket zs recs) date counts st z with
        | .error e => Except.error e
        | .ok (cnew, st1) => runMultiAux (faithfulEnv bucket zs recs) date cnew st1 rest)
        = Except.ok stf := hrun
    cases hp : processZone (faithfulEnv bucket zs recs) date counts st z with
    | error e =>
      rw [hp] at hrun'
      exact absurd hrun' (by simp)
    | ok p =>
      rw [hp] at hrun'
      rcases ih p.1 p.2 stf (by cases p; exact hrun') k hk with h | ⟨w, hw, hkey⟩
      · rcases processZone_faithful_keys bucket zs recs date counts st z p hp k h with
          h2 | h2 | h2
        · exact Or.inl h2
        · exact Or.inr ⟨z, List.mem_cons_self z rest, Or.inl h2⟩
        · exact Or.inr ⟨z, List.mem_cons_self z rest, Or.inr h2⟩
      · exact Or.inr ⟨w, List.mem_cons_of_mem z hw, hkey⟩

/-- Under a fault-free environment `processZoneBasic` reduces to a pure
step. -/
theorem processZoneBasic_faithful (bucket : String) (zs : List HostedZone)
    (recs : String → List Record) (date : String) (st : Store) (z : HostedZone) :
    processZoneBasic (faithfulEnv bucket zs recs) date st z
      = .ok (storePut st (backupKeyBasic date (rstripDot z.nameRaw))
          (backupDocBasic (rstripDot z.nameRaw) (stripZoneId z.idRaw)
            (recs (stripZoneId z.idRaw)))) := rfl

theorem runBasicAux_keys (bucket : String) (zs : List HostedZone)
    (recs : String → List Record) (date : String) :
    ∀ (rest : List HostedZone) (st stf : Store),
      runBasicAux (faithfulEnv bucket zs recs) date st rest = .ok stf →
      ∀ k, (storeGet stf k).isSome = true →
        (storeGet st k).isSome = true ∨
        ∃ z, z ∈ rest ∧ k = backupKeyBasic date (rstripDot z.nameRaw) := by
  intro rest
  induction rest with
  | nil =>
    intro st stf hrun k hk
    cases hrun
    exact Or.inl hk
  | cons z rest ih =>
    intro st stf hrun k hk
    have hrun' : (match processZoneBasic (faithfulEnv bucket zs recs) date st z with
        | .error e => Except.error e
        | .ok st1 => runBasicAux (faithfulEnv bucket zs recs) date st1 rest)
        = Except.ok stf := hrun
    rw [processZoneBasic_faithful] at hrun'
    rcases ih _ stf hrun' k hk with h | ⟨w, hw, hkey⟩
    · rcases storeGet_put_isSome _ _ _ _ h with h2 | h2
      · exact Or.inr ⟨z, List.mem_cons_self z rest, h2⟩
      · exact Or.inl h2
    · exact Or.inr ⟨w, List.mem_cons_of_mem z hw, hkey⟩

/-! ### Wrappers over the fuel-indexed chunk lemmas -/

theorem chunks100_mem {α : Type} (l : List α) (b : List α) (hb : b ∈ chunks100 l) :
    1 ≤ b.length ∧ b.length ≤ 100 :=
  chunks100_mem_length l.length l b (le_refl _) hb

theorem chunks100_length (l : List Record) (h : l.length % 100 ≠ 0) :
    (chunks100 l).length = (l.length + 99) / 100 :=
  chunks100_length_fuel l.length l (le_refl _) h

theorem chunks100_last (l : List Record) (h : l.length % 100 ≠ 0) :
    (chunks100 l).getLast?.map List.length = some (l.length % 100) :=
  chunks100_getLast_fuel l.length l (le_refl _) h

/-! ### Claims -/

/-- Claim C2: the restore operation splits the filtered record sequence
into consecutive chunks of at most 100 records in original order, issues
one change request per chunk with one CREATE action per record in chunk
order, and when `n % 100 ≠ 0` it issues `⌈n / 100⌉ = (n + 99) / 100`
change batches whose last batch holds `n % 100` records. -/
theorem claim_C2 (doc : BackupDoc) :
    (restoreBatches doc).map (fun b => b.map (fun c => c.resourceRecordSet))
        = chunks100 (filteredRecords doc) ∧
    (chunks100 (filteredRecords doc)).flatten = filteredRecords doc ∧
    (∀ b, b ∈ restoreBatches doc →
      b.length ≤ 100 ∧ ∀ c, c ∈ b → c.action = "CREATE") ∧
    ((filteredRecords doc).length % 100 ≠ 0 →
      (restoreBatches doc).length = ((filteredRecords doc).length + 99) / 100 ∧
      (restoreBatches doc).getLast?.map List.length
        = some ((filteredRecords doc).length % 100)) := by
  refine ⟨?_, chunks100_join _, ?_, ?_⟩
  · rw [restoreBatches, List.map_map]
    have : ((fun b : List Change => b.map (fun c => c.resourceRecordSet)) ∘
        (fun b : List Record => b.map (fun r => Change.mk "CREATE" r)))
        = fun b : List Record => b := by
      funext b
      show List.map (fun c => c.resourceRecordSet)
          (List.map (fun r => Change.mk "CREATE" r) b) = b
      rw [List.map_map]
      exact List.map_id' b
    rw [this, List.map_id']
  · intro b hb
    rw [restoreBatches] at hb
    obtain ⟨b0, hb0, rfl⟩ := List.mem_map.mp hb
    refine ⟨?_, ?_⟩
    · rw [List.length_map]
      exact (chunks100_mem _ b0 hb0).2
    · intro c hc
      obtain ⟨r, _, rfl⟩ := List.mem_map.mp hc
      rfl
  · intro hmod
    constructor
    · rw [restoreBatches, List.length_map]
      exact chunks100_length _ hmod
    · rw [restoreBatches, List.getLast?_map, Option.map_map]
      have : (List.length ∘ fun b : List Record => b.map (fun r => Change.mk "CREATE" r))
          = List.length := by
        funext b
        simp
      rw [this]
      exact chunks100_last _ hmod

/-- Concrete backup document with 250 user records, for the C2 witness. -/
def doc250 : BackupDoc :=
  ⟨Json.jnum 0, (List.range 250).map (fun i => ⟨"A", toString i⟩)⟩

set_option maxRecDepth 10000 in
/-- Witness for C2 at a 250-record document: 3 batches, last of size 50. -/
theorem claim_C2_witness :
    (filteredRecords doc250).length % 100 ≠ 0 ∧
    (restoreBatches doc250).length = 3 ∧
    (restoreBatches doc250).getLast?.map List.length = some 50 := by
  have h := (claim_C2 doc250).2.2.2 (by decide)
  refine ⟨by decide, ?_, ?_⟩
  · rw [h.1]
    decide
  · rw [h.2]
    decide

/-- Claim C3: no record whose `Type` is `NS` or `SOA` ever appears in any
change batch submitted by the restore operation. -/
theorem claim_C3 (doc : BackupDoc) (b : List Change) (c : Change)
    (hb : b ∈ restoreBatches doc) (hc : c ∈ b) :
    c.resourceRecordSet.rtype ≠ "NS" ∧ c.resourceRecordSet.rtype ≠ "SOA" := by
  rw [restoreBatches] at hb
  obtain ⟨b0, hb0, rfl⟩ := List.mem_map.mp hb
  obtain ⟨r, hr, rfl⟩ := List.mem_map.mp hc
  have hrin : r ∈ filteredRecords doc := by
    rw [← chunks100_join (filteredRecords doc)]
    exact List.mem_flatten.mpr ⟨b0, hb0, hr⟩
  rw [filteredRecords, List.mem_filter] at hrin
  have hp := hrin.2
  simp only [Bool.not_eq_eq_eq_not, Bool.not_true, Bool.or_eq_false_iff,
    beq_eq_false_iff_ne, ne_eq] at hp
  exact hp

/-- Concrete one-record backup document for the C3 witness. -/
def doc1A : BackupDoc := ⟨Json.jnum 0, [⟨"A", "192.0.2.1"⟩]⟩

/-- Witness for C3 at a concrete batch of the one-record document. -/
theorem claim_C3_witness :
    (Change.mk "CREATE" ⟨"A", "192.0.2.1"⟩).resourceRecordSet.rtype ≠ "NS" ∧
    (Change.mk "CREATE" ⟨"A", "192.0.2.1"⟩).resourceRecordSet.rtype ≠ "SOA" :=
  claim_C3 doc1A [Change.mk "CREATE" ⟨"A", "192.0.2.1"⟩]
    (Change.mk "CREATE" ⟨"A", "192.0.2.1"⟩) (by decide) (by decide)

/-- Claim C9: when the filtered record list is empty the restore
operation submits zero change requests and still returns the success
result. -/
theorem claim_C9 (env : RestoreEnv) (bucket key zid : String) (doc : BackupDoc)
    (hbucket : env.backupBucket = some bucket)
    (hkey : env.eventBackupKey = some key)
    (hzid : env.eventHostedZoneId = some zid)
    (hdoc : env.fetchDoc bucket key = .ok doc)
    (hempty : filteredRecords doc = []) :
    restore_lambda_handler env
      = ([], [], .returned ⟨200, "Restore operation completed", none⟩) := by
  have hbatches : restoreBatches doc = [] := by
    rw [restoreBatches, hempty]
    rfl
  have hbody : restoreBody env = ([], [], .ok zid) := by
    simp only [restoreBody, hbucket, hkey, hzid, hdoc, hbatches]
    rfl
  simp only [restore_lambda_handler, hbody]

/-- Concrete NS/SOA-only document and environment for the C9 witness. -/
def doc9 : BackupDoc := ⟨Json.jnum 0, [⟨"NS", "ns1.example.com"⟩, ⟨"SOA", "serial 1"⟩]⟩

/-- Restore environment reading `doc9`, for the C9 witness. -/
def env9 : RestoreEnv :=
  ⟨some "bk", some "key9", some "Z9", fun _ _ => .ok doc9, fun _ => .ok ()⟩

/-- Witness for C9: an NS/SOA-only backup restores to zero submissions
and a 200 result. -/
theorem claim_C9_witness :
    restore_lambda_handler env9
      = ([], [], .returned ⟨200, "Restore operation completed", none⟩) :=
  claim_C9 env9 "bk" "key9" "Z9" doc9 rfl rfl rfl rfl (by decide)

/-- Claim C10: the submitted change batches depend only on the `records`
field of the backup document (zone metadata is ignored), and every
submitted batch holds between 1 and 100 changes. -/
theorem claim_C10 (doc1 doc2 : BackupDoc) (h : doc1.records = doc2.records) :
    restoreBatches doc1 = restoreBatches doc2 ∧
    (∀ b, b ∈ restoreBatches doc1 → 1 ≤ b.length ∧ b.length ≤ 100) := by
  constructor
  · rw [restoreBatches, restoreBatches, filteredRecords, filteredRecords, h]
  · intro b hb
    rw [restoreBatches] at hb
    obtain ⟨b0, hb0, rfl⟩ := List.mem_map.mp hb
    have hm := chunks100_mem _ b0 hb0
    rw [List.length_map]
    exact hm

/-- Two documents equal in `records` but different in zone metadata, for
the C10 witness. -/
def docMetaA : BackupDoc := ⟨Json.jstr "zoneA", [⟨"A", "192.0.2.1"⟩]⟩

/-- Counterpart of `docMetaA` with different metadata. -/
def docMetaB : BackupDoc := ⟨Json.jstr "zoneB", [⟨"A", "192.0.2.1"⟩]⟩

/-- Witness for C10: different zone metadata, identical submissions. -/
theorem claim_C10_witness :
    restoreBatches docMetaA = restoreBatches docMetaB ∧
    restoreBatches docMetaA = [[Change.mk "CREATE" ⟨"A", "192.0.2.1"⟩]] :=
  ⟨(claim_C10 docMetaA docMetaB rfl).1, rfl⟩

/-- A backup environment whose `get_object` always fails with the given
`ClientError` code (S3 fault injection for the summary read). -/
def badGetEnv (bucket : String) (zones : List HostedZone)
    (recs : String → List Record) (code : String) : BackupEnv :=
  { backupBucket := some bucket
    listZones := .ok zones
    fetchRecords := fun i => .ok (recs i)
    getObject := fun _ _ => .clientError code
    putFault := fun _ => none }

/-- Under `badGetEnv` with a non-`NoSuchKey` code, a zone step either
writes only the backup document (first occurrence of its name) or raises
the `ClientError`. -/
theorem processZone_badGet (bucket : String) (zones : List HostedZone)
    (recs : String → List Record) (code : String) (date : String)
    (counts : String → Nat) (st : Store) (z : HostedZone)
    (hcode : code ≠ "NoSuchKey") :
    processZone (badGetEnv bucket zones recs code) date counts st z
      = if bump counts (rstripDot z.nameRaw) (rstripDot z.nameRaw) > 1
        then .error (.clientError code)
        else .ok (bump counts (rstripDot z.nameRaw),
            storePut st (backupKeyMulti date (rstripDot z.nameRaw) (stripZoneId z.idRaw))
              (backupDocMulti (rstripDot z.nameRaw) (stripZoneId z.idRaw)
                (recs (stripZoneId z.idRaw)))) := by
  have hupd : summaryUpdate (S3GetResult.clientError code) (entryOf date recs z)
      = .error (.clientError code) := by
    simp [summaryUpdate, hcode]
  rw [show processZone (badGetEnv bucket zones recs code) date counts st z
      = (if bump counts (rstripDot z.nameRaw) (rstripDot z.nameRaw) > 1 then
          match summaryUpdate (S3GetResult.clientError code) (entryOf date recs z) with
          | .error e => Except.error e
          | .ok content =>
            Except.ok (bump counts (rstripDot z.nameRaw),
              storePut
                (storePut st (backupKeyMulti date (rstripDot z.nameRaw) (stripZoneId z.idRaw))
                  (backupDocMulti (rstripDot z.nameRaw) (stripZoneId z.idRaw)
                    (recs (stripZoneId z.idRaw))))
                (summaryKey date (rstripDot z.nameRaw)) content)
        else
          Except.ok (bump counts (rstripDot z.nameRaw),
            storePut st (backupKeyMulti date (rstripDot z.nameRaw) (stripZoneId z.idRaw))
              (backupDocMulti (rstripDot z.nameRaw) (stripZoneId z.idRaw)
                (recs (stripZoneId z.idRaw))))) from rfl]
  rw [hupd]

/-- Claim C4: the summary merge rule — not-found starts a fresh
one-element sequence, an existing sequence is appended to, an existing
single object becomes `[existing, current]`, and any other read failure
propagates and makes the whole run fail. -/
theorem claim_C4 :
    (∀ entry, summaryUpdate (S3GetResult.clientError "NoSuchKey") entry
        = .ok (.jarr [entry])) ∧
    (∀ l entry, summaryUpdate (S3GetResult.ok (.jarr l)) entry
        = .ok (.jarr (l ++ [entry]))) ∧
    (∀ fields entry, summaryUpdate (S3GetResult.ok (.jobj fields)) entry
        = .ok (.jarr [.jobj fields, entry])) ∧
    (∀ code entry, code ≠ "NoSuchKey" →
        summaryUpdate (S3GetResult.clientError code) entry
          = .error (.clientError code)) ∧
    (∀ code bucket recs now (z1 z2 : HostedZone), code ≠ "NoSuchKey" →
        rstripDot z2.nameRaw = rstripDot z1.nameRaw →
        backupMultiHandler (badGetEnv bucket [z1, z2] recs code) now
          = .returned ⟨500, "Backup operation failed",
              some (errMsg (.clientError code))⟩) := by
  refine ⟨fun entry => rfl, fun l entry => rfl, fun fields entry => rfl, ?_, ?_⟩
  · intro code entry hcode
    simp [summaryUpdate, hcode]
  · intro code bucket recs now z1 z2 hcode hname
    have hp1 : processZone (badGetEnv bucket [z1, z2] recs code) (strftimeMulti now)
        (fun _ => 0) [] z1
        = .ok (bump (fun _ => 0) (rstripDot z1.nameRaw),
            storePut [] (backupKeyMulti (strftimeMulti now) (rstripDot z1.nameRaw)
                (stripZoneId z1.idRaw))
              (backupDocMulti (rstripDot z1.nameRaw) (stripZoneId z1.idRaw)
                (recs (stripZoneId z1.idRaw)))) := by
      rw [processZone_badGet bucket [z1, z2] recs code _ _ _ _ hcode]
      rw [if_neg]
      simp [bump]
    have hp2 : processZone (badGetEnv bucket [z1, z2] recs code) (strftimeMulti now)
        (bump (fun _ => 0) (rstripDot z1.nameRaw))
        (storePut [] (backupKeyMulti (strftimeMulti now) (rstripDot z1.nameRaw)
            (stripZoneId z1.idRaw))
          (backupDocMulti (rstripDot z1.nameRaw) (stripZoneId z1.idRaw)
            (recs (stripZoneId z1.idRaw)))) z2
        = .error (.clientError code) := by
      rw [processZone_badGet bucket [z1, z2] recs code _ _ _ _ hcode]
      rw [if_pos]
      rw [hname]
      simp [bump]
    have hbody : backupMultiBody (badGetEnv bucket [z1, z2] recs code) now
        = .error (.clientError code) := by
      show (match processZone (badGetEnv bucket [z1, z2] recs code) (strftimeMulti now)
          (fun _ => 0) [] z1 with
        | .error e => Except.error e
        | .ok (cnew, st1) =>
          runMultiAux (badGetEnv bucket [z1, z2] recs code) (strftimeMulti now) cnew st1 [z2])
        = Except.error (.clientError code)
      rw [hp1]
      show (match processZone (badGetEnv bucket [z1, z2] recs code) (strftimeMulti now)
          (bump (fun _ => 0) (rstripDot z1.nameRaw))
          (storePut [] (backupKeyMulti (strftimeMulti now) (rstripDot z1.nameRaw)
              (stripZoneId z1.idRaw))
            (backupDocMulti (rstripDot z1.nameRaw) (stripZoneId z1.idRaw)
              (recs (stripZoneId z1.idRaw)))) z2 with
        | .error e => Except.error e
        | .ok (cnew, st1) =>
          runMultiAux (badGetEnv bucket [z1, z2] recs code) (strftimeMulti now) cnew st1 [])
        = Except.error (.clientError code)
      rw [hp2]
    simp only [backupMultiHandler, hbody]

/-- Witness for C4: concrete inputs for the merge cases and a concrete
run aborted by an `AccessDenied` summary read. -/
theorem claim_C4_witness :
    summaryUpdate (S3GetResult.clientError "NoSuchKey") (Json.jnum 7)
      = .ok (.jarr [Json.jnum 7]) ∧
    summaryUpdate (S3GetResult.ok (.jarr [Json.jnum 1])) (Json.jnum 7)
      = .ok (.jarr [Json.jnum 1, Json.jnum 7]) ∧
    summaryUpdate (S3GetResult.ok (.jobj [])) (Json.jnum 7)
      = .ok (.jarr [.jobj [], Json.jnum 7]) ∧
    summaryUpdate (S3GetResult.clientError "AccessDenied") (Json.jnum 7)
      = .error (.clientError "AccessDenied") ∧
    backupMultiHandler
      (badGetEnv "bk" [⟨"/hostedzone/Z1", "dup.com."⟩, ⟨"/hostedzone/Z2", "dup.com."⟩]
        (fun _ => []) "AccessDenied") ⟨2024, 1, 2, 3, 4, 5⟩
      = .returned ⟨500, "Backup operation failed",
          some (errMsg (.clientError "AccessDenied"))⟩ :=
  ⟨claim_C4.1 (Json.jnum 7),
   claim_C4.2.1 [Json.jnum 1] (Json.jnum 7),
   claim_C4.2.2.1 [] (Json.jnum 7),
   claim_C4.2.2.2.1 "AccessDenied" (Json.jnum 7) (by decide),
   claim_C4.2.2.2.2 "AccessDenied" "bk" (fun _ => []) ⟨2024, 1, 2, 3, 4, 5⟩
     ⟨"/hostedzone/Z1", "dup.com."⟩ ⟨"/hostedzone/Z2", "dup.com."⟩ (by decide) rfl⟩

/-- Claim C5: if the submission of chunk `k` fails with a `ClientError`,
chunks `1..k-1` are applied and kept, later chunks are never attempted,
and the handler returns a single aggregate 500 failure. -/
theorem claim_C5 (env : RestoreEnv) (bucket key zid : String) (doc : BackupDoc)
    (k : Nat) (e : PyError)
    (hbucket : env.backupBucket = some bucket)
    (hkey : env.eventBackupKey = some key)
    (hzid : env.eventHostedZoneId = some zid)
    (hdoc : env.fetchDoc bucket key = .ok doc)
    (hk1 : 1 ≤ k) (hk2 : k ≤ (restoreBatches doc).length)
    (hok : ∀ j, j < k - 1 → env.submitResult j = .ok ())
    (hfail : env.submitResult (k - 1) = .error e)
    (hce : isClientError e = true) :
    restore_lambda_handler env
      = ((restoreBatches doc).take (k - 1), List.range k,
         .returned ⟨500, "Restore operation failed", some (errMsg e)⟩) := by
  have hloop := submitLoop_fail env.submitResult (restoreBatches doc) 0 k e hk1 hk2
    (fun j hj => by simpa using hok j hj) (by simpa using hfail)
  have hmap : (List.range k).map (0 + ·) = List.range k := by
    simp
  rw [hmap] at hloop
  have hbody : restoreBody env
      = ((restoreBatches doc).take (k - 1), List.range k, .error e) := by
    simp only [restoreBody, hbucket, hkey, hzid, hdoc, hloop]
  simp only [restore_lambda_handler, hbody, hce, if_true]

/-- Concrete 150-record backup document for the C5 witness (2 batches). -/
def doc150 : BackupDoc :=
  ⟨Json.jnum 0, (List.range 150).map (fun i => ⟨"A", toString i⟩)⟩

/-- Restore environment whose second change submission fails, for the C5
witness. -/
def env150 : RestoreEnv :=
  ⟨some "bk", some "key150", some "Z150", fun _ _ => .ok doc150,
   fun j => if j = 0 then .ok () else .error (.clientError "Throttling")⟩

set_option maxRecDepth 10000 in
/-- Witness for C5: of two batches the first is applied, the second
fails, and the run reports one aggregate 500 failure. -/
theorem claim_C5_witness :
    restore_lambda_handler env150
      = ((restoreBatches doc150).take 1, List.range 2,
         .returned ⟨500, "Restore operation failed",
           some (errMsg (.clientError "Throttling"))⟩) :=
  claim_C5 env150 "bk" "key150" "Z150" doc150 2 (.clientError "Throttling")
    rfl rfl rfl rfl (by decide) (by decide)
    (fun j hj => by
      have hj0 : j = 0 := by omega
      rw [hj0]
      rfl)
    rfl rfl

/-- Restore environment with the `BACKUP_BUCKET` variable missing, for
the C6 counterexample. -/
def crashEnv : RestoreEnv :=
  ⟨none, some "2024/zone/route53_backup.json", some "Z1",
   fun _ _ => .ok ⟨Json.jnum 0, []⟩, fun _ => .ok ()⟩

/-- Counterexample to C6: a missing `BACKUP_BUCKET` environment variable
makes the restore handler crash with an uncaught `KeyError` instead of
returning a structured failure result — `restore_lambda.py` catches only
`ClientError`. -/
theorem claim_C6_counterexample :
    (restore_lambda_handler crashEnv).2.2
      = Outcome.crashed (PyError.keyError "BACKUP_BUCKET") := rfl

/-- Claim C6 as amended: both backup handlers convert every error into a
structured result; the restore handler does so only for `ClientError`
values and lets every other error propagate as a crash. -/
theorem claim_C6_amended :
    (∀ env now, ∃ r, backupMultiHandler env now = .returned r ∧
        (r.statusCode = 200 ∧ r.error = none ∨
         r.statusCode = 500 ∧ r.error.isSome = true)) ∧
    (∀ env now, ∃ r, backupBasicHandler env now = .returned r ∧
        (r.statusCode = 200 ∧ r.error = none ∨
         r.statusCode = 500 ∧ r.error.isSome = true)) ∧
    (∀ env applied tried e, restoreBody env = (applied, tried, .error e) →
        (isClientError e = true →
          restore_lambda_handler env
            = (applied, tried,
               .returned ⟨500, "Restore operation failed", some (errMsg e)⟩)) ∧
        (isClientError e = false →
          restore_lambda_handler env = (applied, tried, .crashed e))) := by
  refine ⟨?_, ?_, ?_⟩
  · intro env now
    cases h : backupMultiBody env now with
    | ok st =>
      exact ⟨⟨200, "Backup operation completed", none⟩,
        by simp only [backupMultiHandler, h], Or.inl ⟨rfl, rfl⟩⟩
    | error e =>
      exact ⟨⟨500, "Backup operation failed", some (errMsg e)⟩,
        by simp only [backupMultiHandler, h], Or.inr ⟨rfl, rfl⟩⟩
  · intro env now
    cases h : backupBasicBody env now with
    | ok st =>
      exact ⟨⟨200, "Backup operation completed", none⟩,
        by simp only [backupBasicHandler, h], Or.inl ⟨rfl, rfl⟩⟩
    | error e =>
      exact ⟨⟨500, "Backup operation failed", some (errMsg e)⟩,
        by simp only [backupBasicHandler, h], Or.inr ⟨rfl, rfl⟩⟩
  · intro env applied tried e hbody
    constructor
    · intro hce
      simp only [restore_lambda_handler, hbody, hce, if_true]
    · intro hce
      simp only [restore_lambda_handler, hbody, hce, Bool.false_eq_true, if_false]

/-- Witness for the amended C6 at concrete environments: a fault-free
backup run returns a 200 result, and a restore body failing with a
non-`ClientError` crashes. -/
theorem claim_C6_amended_witness :
    (∃ r, backupMultiHandler (faithfulEnv "bk" [] (fun _ => [])) ⟨2024, 1, 2, 3, 4, 5⟩
        = .returned r ∧
        (r.statusCode = 200 ∧ r.error = none ∨
         r.statusCode = 500 ∧ r.error.isSome = true)) ∧
    restore_lambda_handler crashEnv
      = ([], [], .crashed (PyError.keyError "BACKUP_BUCKET")) :=
  ⟨claim_C6_amended.1 (faithfulEnv "bk" [] (fun _ => [])) ⟨2024, 1, 2, 3, 4, 5⟩,
   ((claim_C6_amended.2.2 crashEnv [] [] (PyError.keyError "BACKUP_BUCKET") rfl).2 rfl)⟩

/-- Claim C1: in the collision-aware variant, a run over any zone list
leaves, for every display name, a summary document exactly when the name
occurs at least twice; it then holds one entry per occurrence from the
second on, in zone-processing order (`k - 1` entries for `k`
occurrences), and a name occurring exactly once gets no summary
document. -/
theorem claim_C1 (bucket : String) (zones : List HostedZone)
    (recs : String → List Record) (now : DateTime) (n : String) :
    ∃ stf, backupMultiBody (faithfulEnv bucket zones recs) now = .ok stf ∧
      (2 ≤ (occOf n zones).length →
        storeGet stf (summaryKey (strftimeMulti now) n)
          = some (Json.jarr (((occOf n zones).drop 1).map
              (entryOf (strftimeMulti now) recs))) ∧
        (((occOf n zones).drop 1).map (entryOf (strftimeMulti now) recs)).length
          = (occOf n zones).length - 1) ∧
      ((occOf n zones).length = 1 →
        storeGet stf (summaryKey (strftimeMulti now) n) = none) := by
  obtain ⟨stf, hrun, hinv⟩ := runMultiAux_summary bucket zones recs (strftimeMulti now)
    zones [] (fun _ => 0) [] (fun _ => rfl) (fun _ => rfl)
  refine ⟨stf, hrun, ?_, ?_⟩
  · intro h2
    constructor
    · rw [hinv n]
      simp only [List.nil_append]
      rw [expectedSummary, if_pos h2]
    · rw [List.length_map, List.length_drop]
  · intro h1
    rw [hinv n]
    simp only [List.nil_append]
    rw [expectedSummary, if_neg (by omega)]

/-- Witness for C1: two zones named `example.com` produce a summary with
exactly the second zone's entry, and the single `solo.com` zone gets no
summary document. -/
theorem claim_C1_witness :
    ∃ stf, backupMultiBody
        (faithfulEnv "bk"
          [⟨"/hostedzone/Z1", "example.com."⟩, ⟨"/hostedzone/Z2", "example.com."⟩,
           ⟨"/hostedzone/Z3", "solo.com."⟩]
          (fun _ => [])) ⟨2024, 1, 2, 3, 4, 5⟩ = .ok stf ∧
      storeGet stf (summaryKey (strftimeMulti ⟨2024, 1, 2, 3, 4, 5⟩) "example.com")
        = some (Json.jarr [summaryEntryJsonOf "2024-01-02_03:04:05" "example.com" "Z2" []]) ∧
      storeGet stf (summaryKey (strftimeMulti ⟨2024, 1, 2, 3, 4, 5⟩) "solo.com") = none := by
  obtain ⟨stf, hrun, h2, _⟩ := claim_C1 "bk"
    [⟨"/hostedzone/Z1", "example.com."⟩, ⟨"/hostedzone/Z2", "example.com."⟩,
     ⟨"/hostedzone/Z3", "solo.com."⟩] (fun _ => []) ⟨2024, 1, 2, 3, 4, 5⟩ "example.com"
  obtain ⟨stf2, hrun2, _, h1⟩ := claim_C1 "bk"
    [⟨"/hostedzone/Z1", "example.com."⟩, ⟨"/hostedzone/Z2", "example.com."⟩,
     ⟨"/hostedzone/Z3", "solo.com."⟩] (fun _ => []) ⟨2024, 1, 2, 3, 4, 5⟩ "solo.com"
  have hsame : stf2 = stf := by
    rw [hrun] at hrun2
    exact ((Except.ok.injEq _ _).mp hrun2).symm
  refine ⟨stf, hrun, ?_, ?_⟩
  · rw [(h2 (by decide)).1]
    rfl
  · rw [← hsame]
    exact h1 (by decide)

/-- First of the two same-named zones of the C7 counterexample. -/
def zc1 : HostedZone := ⟨"/hostedzone/Z1", "example.com."⟩

/-- Second of the two same-named zones of the C7 counterexample. -/
def zc2 : HostedZone := ⟨"/hostedzone/Z2", "example.com."⟩

/-- Counterexample to C7: in the basic variant two distinct zones with
the same display name write the very same backup key, and after the run
that key holds the second zone's document — the first zone's backup was
overwritten. -/
theorem claim_C7_counterexample :
    zc1 ≠ zc2 ∧
    backupKeyBasic "20240102_030405" (rstripDot zc1.nameRaw)
      = backupKeyBasic "20240102_030405" (rstripDot zc2.nameRaw) ∧
    (∃ stf, backupBasicBody (faithfulEnv "bk" [zc1, zc2] (fun _ => []))
        ⟨2024, 1, 2, 3, 4, 5⟩ = .ok stf ∧
      storeGet stf (backupKeyBasic "20240102_030405" (rstripDot zc1.nameRaw))
        = some (backupDocBasic "example.com" "Z2" [])) := by
  refine ⟨by decide, rfl, ⟨_, rfl, ?_⟩⟩
  rfl

/-- Claim C7 as amended: backup keys never collide with summary keys, the
collision-aware variant writes distinct keys for same-named zones with
distinct stripped ids, and the basic variant guarantees distinct keys
only for zones with distinct display names — same-named zones share one
key and the later write replaces the earlier document. -/
theorem claim_C7_amended :
    (∀ date n1 n2, n1 ≠ n2 → backupKeyBasic date n1 ≠ backupKeyBasic date n2) ∧
    (∀ date n id1 id2, id1 ≠ id2 → backupKeyMulti date n id1 ≠ backupKeyMulti date n id2) ∧
    (∀ date n date2 n2 id, backupKeyMulti date2 n2 id ≠ summaryKey date n) ∧
    (∀ date n date2 n2, backupKeyBasic date2 n2 ≠ summaryKey date n) := by
  refine ⟨?_, ?_, ?_, ?_⟩
  · intro date n1 n2 hne h
    exact hne (backupKeyBasic_inj date n1 n2 h)
  · intro date n id1 id2 hne h
    exact hne (backupKeyMulti_inj_id date n id1 id2 h)
  · intro date n date2 n2 id
    exact backupKeyMulti_ne_summaryKey date2 n2 id date n
  · intro date n date2 n2
    exact backupKeyBasic_ne_summaryKey date2 n2 date n

/-- Witness for the amended C7 at concrete names and ids. -/
theorem claim_C7_amended_witness :
    backupKeyBasic "20240102_030405" "a.com" ≠ backupKeyBasic "20240102_030405" "b.com" ∧
    backupKeyMulti "2024-01-02_03:04:05" "example.com" "Z1"
      ≠ backupKeyMulti "2024-01-02_03:04:05" "example.com" "Z2" :=
  ⟨claim_C7_amended.1 "20240102_030405" "a.com" "b.com" (by decide),
   claim_C7_amended.2.1 "2024-01-02_03:04:05" "example.com" "Z1" "Z2" (by decide)⟩

/-- Claim C8: every key a run stores has exactly the documented format —
`<YYYYMMDD_HHMMSS>/<zone_name>/route53_backup.json` in the basic variant
and `<YYYY-MM-DD_HH:MM:SS>/<zone_name>/<zone_id>/route53_backup.json` or
`<timestamp>/<zone_name>/zone_summary.json` in the collision-aware
variant, with `zone_id` the identifier stripped of its path prefix
(`split('/')[-1]`) and `zone_name` the display name with trailing dots
removed (`rstrip('.')`). -/
theorem claim_C8 :
    (∀ bucket zones recs now stf key,
      backupBasicBody (faithfulEnv bucket zones recs) now = .ok stf →
      (storeGet stf key).isSome = true →
      ∃ z, z ∈ zones ∧
        key = strftimeBasic now ++ "/" ++ rstripDot z.nameRaw ++ "/route53_backup.json") ∧
    (∀ bucket zones recs now stf key,
      backupMultiBody (faithfulEnv bucket zones recs) now = .ok stf →
      (storeGet stf key).isSome = true →
      ∃ z, z ∈ zones ∧
        (key = strftimeMulti now ++ "/" ++ rstripDot z.nameRaw ++ "/"
            ++ stripZoneId z.idRaw ++ "/route53_backup.json" ∨
         key = strftimeMulti now ++ "/" ++ rstripDot z.nameRaw ++ "/zone_summary.json")) := by
  constructor
  · intro bucket zones recs now stf key hrun hkey
    rcases runBasicAux_keys bucket zones recs (strftimeBasic now) zones [] stf hrun
        key hkey with h | ⟨z, hz, hk⟩
    · exact absurd h (by simp [storeGet])
    · exact ⟨z, hz, hk⟩
  · intro bucket zones recs now stf key hrun hkey
    rcases runMultiAux_keys bucket zones recs (strftimeMulti now) zones (fun _ => 0) [] stf
        hrun key hkey with h | ⟨z, hz, hk⟩
    · exact absurd h (by simp [storeGet])
    · exact ⟨z, hz, hk⟩

/-- Witness for C8: a one-zone basic run stores exactly the documented
key, and the collision-aware run at a duplicated name stores the summary
key. -/
theorem claim_C8_witness :
    (∃ z, z ∈ [(⟨"/hostedzone/Z9", "w.com."⟩ : HostedZone)] ∧
      "20240102_030405/w.com/route53_backup.json"
        = strftimeBasic ⟨2024, 1, 2, 3, 4, 5⟩ ++ "/" ++ rstripDot z.nameRaw
          ++ "/route53_backup.json") ∧
    (∃ z, z ∈ [(⟨"/hostedzone/Z1", "dup.com."⟩ : HostedZone),
               (⟨"/hostedzone/Z2", "dup.com."⟩ : HostedZone)] ∧
      ("2024-01-02_03:04:05/dup.com/zone_summary.json"
        = strftimeMulti ⟨2024, 1, 2, 3, 4, 5⟩ ++ "/" ++ rstripDot z.nameRaw ++ "/"
          ++ stripZoneId z.idRaw ++ "/route53_backup.json" ∨
       "2024-01-02_03:04:05/dup.com/zone_summary.json"
        = strftimeMulti ⟨2024, 1, 2, 3, 4, 5⟩ ++ "/" ++ rstripDot z.nameRaw
          ++ "/zone_summary.json")) := by
  constructor
  · exact claim_C8.1 "bk" [⟨"/hostedzone/Z9", "w.com."⟩] (fun _ => [])
      ⟨2024, 1, 2, 3, 4, 5⟩
      [("20240102_030405/w.com/route53_backup.json", backupDocBasic "w.com" "Z9" [])]
      "20240102_030405/w.com/route53_backup.json" rfl rfl
  · refine claim_C8.2 "bk"
      [⟨"/hostedzone/Z1", "dup.com."⟩, ⟨"/hostedzone/Z2", "dup.com."⟩] (fun _ => [])
      ⟨2024, 1, 2, 3, 4, 5⟩
      ((backupMultiBody (faithfulEnv "bk"
        [⟨"/hostedzone/Z1", "dup.com."⟩, ⟨"/hostedzone/Z2", "dup.com."⟩] (fun _ => []))
        ⟨2024, 1, 2, 3, 4, 5⟩).toOption.getD [])
      "2024-01-02_03:04:05/dup.com/zone_summary.json" ?_ ?_
    · rfl
    · rfl

end R53
